import Mathlib

/-!
Verification development for the snooker practice simulator (src/sketch.js).

The source is p5.js/Matter.js JavaScript; numbers are embedded as exact
rationals (the source's decimal literals are exact in binary-independent
form here; every claim checked is about exact arithmetic relations).
Euclidean distances `dist p q < r` from the source are embedded as the
equivalent squared comparison `dist2 p q < r^2` (for `0 ≤ r`), keeping
every definition executable over `ℚ`.
-/

namespace Snooker

/-- Squared Euclidean distance between `(px, py)` and `(qx, qy)`; the
source compares `dist(...) < r`, embedded here as `dist2 ... < r^2`. -/
def dist2 (px py qx qy : ℚ) : ℚ := (px - qx)^2 + (py - qy)^2

/-- Table geometry record built by `rebuildTableGeometry` (sketch.js
lines 308-331): outer rectangle, rail, playing surface, ball and pocket
sizes, baulk/D data and the six colour spots. -/
structure TableGeom where
  x : ℚ
  y : ℚ
  w : ℚ
  h : ℚ
  rail : ℚ
  surfX : ℚ
  surfY : ℚ
  surfW : ℚ
  surfH : ℚ
  ballD : ℚ
  ballR : ℚ
  pocketR : ℚ
  baulkX : ℚ
  dRadius : ℚ
  dCenterX : ℚ
  dCenterY : ℚ
  spotBrown : ℚ × ℚ
  spotGreen : ℚ × ℚ
  spotYellow : ℚ × ℚ
  spotBlue : ℚ × ℚ
  spotPink : ℚ × ℚ
  spotBlack : ℚ × ℚ
  deriving Repr, DecidableEq

/-- Embedding of `rebuildTableGeometry` (sketch.js lines 264-334) from the
point where the outer `tableLength` and the table's screen position
`(x, y)` have been determined: `tableWidth = tableLength / 2`,
`ballD = tableWidth / 36`, `pocketD = 1.5 * ballD`, `pocketR = pocketD / 2`,
`rail = ballD * 1.6`, the playing surface is the outer rectangle shrunk
by `rail` on all sides, and the markings/spots are fixed fractions of the
surface. -/
def rebuildTableGeometry (x y tableLength : ℚ) : TableGeom :=
  let tableWidth := tableLength / 2
  let ballD := tableWidth / 36
  let ballR := ballD / 2
  let pocketD := 1.5 * ballD
  let pocketR := pocketD / 2
  let rail := ballD * 1.6
  let surfX := x + rail
  let surfY := y + rail
  let surfW := tableLength - 2 * rail
  let surfH := tableWidth - 2 * rail
  let baulkX := surfX + surfW * 0.207
  let dRadius := surfH * 0.165
  let centerX := surfX + surfW / 2
  let centerY := surfY + surfH / 2
  let blackX := surfX + surfW * 0.91
  let blueX := centerX
  let pinkX := surfX + surfW * 0.75
  { x := x
    y := y
    w := tableLength
    h := tableWidth
    rail := rail
    surfX := surfX
    surfY := surfY
    surfW := surfW
    surfH := surfH
    ballD := ballD
    ballR := ballR
    pocketR := pocketR
    baulkX := baulkX
    dRadius := dRadius
    dCenterX := baulkX
    dCenterY := centerY
    spotBrown := (baulkX, centerY)
    spotGreen := (baulkX, centerY - dRadius)
    spotYellow := (baulkX, centerY + dRadius)
    spotBlue := (blueX, centerY)
    spotPink := (pinkX, centerY)
    spotBlack := (blackX, centerY) }

/-- One pocket: id and centre (sketch.js `buildPocketList`). -/
structure Pocket where
  id : String
  px : ℚ
  py : ℚ
  deriving Repr, DecidableEq

/-- Embedding of `buildPocketList` (sketch.js lines 336-358): four corner
pockets inset by `0.2 * pocketR` and two mid-long-side pockets. -/
def buildPocketList (g : TableGeom) : List Pocket :=
  let inset := g.pocketR * 0.2
  [ { id := "TL", px := g.surfX + inset, py := g.surfY + inset }
  , { id := "TM", px := g.surfX + g.surfW / 2, py := g.surfY + inset }
  , { id := "TR", px := g.surfX + g.surfW - inset, py := g.surfY + inset }
  , { id := "BL", px := g.surfX + inset, py := g.surfY + g.surfH - inset }
  , { id := "BM", px := g.surfX + g.surfW / 2, py := g.surfY + g.surfH - inset }
  , { id := "BR", px := g.surfX + g.surfW - inset, py := g.surfY + g.surfH - inset } ]

end Snooker

namespace Snooker

/-- C1: the claim asserts `pocketRadius = 1.5 × ballDiameter` and, at outer
length 900, `pocketRadius = 18.75`.  The code sets the pocket DIAMETER to
`1.5 * ballD` and stores `pocketR = pocketD / 2`, so at 900 the pocket
radius is 9.375, not 18.75. -/
theorem c1_counterexample :
    (rebuildTableGeometry 0 0 900).ballD = 12.5 ∧
    (rebuildTableGeometry 0 0 900).pocketR = 9.375 ∧
    (rebuildTableGeometry 0 0 900).pocketR ≠ 1.5 * (rebuildTableGeometry 0 0 900).ballD := by
  refine ⟨by norm_num [rebuildTableGeometry], by norm_num [rebuildTableGeometry], ?_⟩
  norm_num [rebuildTableGeometry]

/-- C1 (amended): for every outer table length the derived pocket radius
equals 0.75 × ball diameter (the pocket DIAMETER is 1.5 × ball diameter);
at outer length 900 the width is 450, ball diameter 12.5 and pocket radius
9.375. -/
theorem c1_pocket_ratio :
    (∀ x y L : ℚ, (rebuildTableGeometry x y L).pocketR
        = 0.75 * (rebuildTableGeometry x y L).ballD) ∧
    (rebuildTableGeometry 0 0 900).h = 450 ∧
    (rebuildTableGeometry 0 0 900).ballD = 12.5 ∧
    (rebuildTableGeometry 0 0 900).pocketR = 9.375 := by
  refine ⟨fun x y L => ?_, by norm_num [rebuildTableGeometry],
    by norm_num [rebuildTableGeometry], by norm_num [rebuildTableGeometry]⟩
  show 1.5 * (L / 2 / 36) / 2 = 0.75 * (L / 2 / 36)
  ring

/-- C2: the claim asserts that the PLAYING-SURFACE rectangle satisfies
`surfaceWidth = surfaceLength / 2` and `ballD = surfaceWidth / 36`.  At
outer length 900 the surface is 860 × 410, and 410 ≠ 860 / 2; the ball
diameter is 12.5 ≠ 410 / 36 (it is derived from the OUTER width 450). -/
theorem c2_counterexample :
    (rebuildTableGeometry 0 0 900).surfW = 860 ∧
    (rebuildTableGeometry 0 0 900).surfH = 410 ∧
    (rebuildTableGeometry 0 0 900).surfH ≠ (rebuildTableGeometry 0 0 900).surfW / 2 ∧
    (rebuildTableGeometry 0 0 900).ballD ≠ (rebuildTableGeometry 0 0 900).surfH / 36 := by
  refine ⟨by norm_num [rebuildTableGeometry], by norm_num [rebuildTableGeometry], ?_, ?_⟩
  · norm_num [rebuildTableGeometry]
  · norm_num [rebuildTableGeometry]

/-- C2 (amended): the OUTER table rectangle satisfies width = length / 2
and the ball diameter equals the outer width / 36; the playing surface is
the outer rectangle shrunk by the rail thickness on all four sides. -/
theorem c2_outer_ratio (x y L : ℚ) :
    (rebuildTableGeometry x y L).h = (rebuildTableGeometry x y L).w / 2 ∧
    (rebuildTableGeometry x y L).ballD = (rebuildTableGeometry x y L).h / 36 ∧
    (rebuildTableGeometry x y L).surfW
      = (rebuildTableGeometry x y L).w - 2 * (rebuildTableGeometry x y L).rail ∧
    (rebuildTableGeometry x y L).surfH
      = (rebuildTableGeometry x y L).h - 2 * (rebuildTableGeometry x y L).rail := by
  refine ⟨rfl, rfl, rfl, rfl⟩

/-- One ball record (sketch.js `createBall`, lines 463-488): identity,
colour string, kind flags, position, velocity, radius, `potted` flag, and
`inWorld` standing for the presence of its Matter.js body in the world. -/
structure Ball where
  id : String
  colour : String
  isCue : Bool
  isRed : Bool
  px : ℚ
  py : ℚ
  vx : ℚ
  vy : ℚ
  r : ℚ
  potted : Bool
  inWorld : Bool
  deriving Repr, DecidableEq

/-- Shot outcome as recorded in the shot log (sketch.js line 837). -/
inductive Outcome where
  | foul : Outcome
  | pottedBall : Outcome
  | miss : Outcome
  deriving Repr, DecidableEq

/-- One shot-log entry (sketch.js lines 841-845): shot number, outcome and
the id/colour summaries of the balls potted during the shot. -/
structure ShotEntry where
  n : ℕ
  outcome : Outcome
  potted : List (String × String)
  deriving Repr, DecidableEq

/-- The mutable game state touched by the shot lifecycle (sketch.js
globals, lines 42-106): ball registry split into reds/colours/cue, the
shot counter and in-progress shot flags, the shot log, and the frame-over
flag.  `aimPower` is the power in `[0,1]` and `(aimDirX, aimDirY)` the aim
unit vector `(cos aimAngle, sin aimAngle)`. -/
structure GameState where
  reds : List Ball
  colours : List Ball
  cueBall : Option Ball
  shotsTaken : ℕ
  shotInProgress : Bool
  shotPottedThisShot : List (String × String)
  shotFoulThisShot : Bool
  shotLog : List ShotEntry
  gameOver : Bool
  gameOverReason : String
  aimPower : ℚ
  aimDirX : ℚ
  aimDirY : ℚ
  deriving Repr, DecidableEq

/-- The combined ball list `[...reds, ...colours]` plus the cue ball when
present, in the order the source builds it (e.g. lines 824-826). -/
def allBalls (st : GameState) : List Ball :=
  st.reds ++ st.colours ++ st.cueBall.toList

/-- Embedding of `ballIsMoving` (sketch.js lines 818-822): a missing or
potted ball never counts as moving; otherwise moving means some velocity
component has magnitude strictly greater than 0.08. -/
def ballIsMoving (b : Ball) : Bool :=
  if b.potted then false
  else decide (|b.vx| > 0.08) || decide (|b.vy| > 0.08)

/-- Embedding of `areAnyBallsMoving` (sketch.js lines 824-831). -/
def areAnyBallsMoving (st : GameState) : Bool :=
  (allBalls st).any ballIsMoving

/-- Embedding of `isCueBallResting` (sketch.js lines 987-991): false when
no cue ball exists; otherwise both velocity components must have magnitude
strictly below 0.08. -/
def isCueBallResting (st : GameState) : Bool :=
  match st.cueBall with
  | none => false
  | some cb => decide (|cb.vx| < 0.08) && decide (|cb.vy| < 0.08)

end Snooker

namespace Snooker

/-- Effect of `potBall` on the ball record itself (sketch.js lines
696-697): the `potted` flag is set and the physics body is removed from
the world. -/
def potBallFlags (b : Ball) : Ball :=
  { b with potted := true, inWorld := false }

/-- Whether a ball's centre lies within the forgiving capture radius `pr`
of some pocket (sketch.js lines 686-691; `dist < pr` embedded as the
squared comparison). -/
def ballCaptured (pockets : List Pocket) (pr : ℚ) (b : Ball) : Bool :=
  pockets.any fun p => decide (dist2 b.px b.py p.px p.py < pr^2)

/-- Per-ball body of the `handlePotting` loop (sketch.js lines 681-692):
a potted ball is skipped (`continue`); a live ball whose centre is within
the capture radius of some pocket is potted (the `break` after the first
matching pocket only stops further pocket tests; the effect on the ball
is the same). -/
def potScanBall (pockets : List Pocket) (pr : ℚ) (b : Ball) : Ball :=
  if b.potted then b
  else if ballCaptured pockets pr b then potBallFlags b
  else b

/-- Embedding of the marking/removal effect of `handlePotting` (sketch.js
lines 674-693): every ball is visited with the forgiving capture radius
`pocketR * 1.18`. -/
def handlePotting (pockets : List Pocket) (pocketR : ℚ) (balls : List Ball) :
    List Ball :=
  balls.map (potScanBall pockets (pocketR * 1.18))

/-- Shot-record block of `potBall` (sketch.js lines 710-716): while a
shot is in progress, a cue-ball pot sets the foul flag and any other pot
is appended to the shot's potted-ball summaries. -/
def potBallShot (st : GameState) (b : Ball) : GameState :=
  if st.shotInProgress then
    if b.isCue then { st with shotFoulThisShot := true }
    else { st with shotPottedThisShot := st.shotPottedThisShot ++ [(b.id, b.colour)] }
  else st

/-- Frame-end block of `potBall` (sketch.js lines 718-724): a non-cue pot
with id "black" ends the frame when the red list is nonempty and every
red is already potted. -/
def potBallBlack (st : GameState) (b : Ball) : GameState :=
  if !b.isCue && b.id == "black" then
    if decide (st.reds.length > 0) && st.reds.all (fun r => r.potted) then
      { st with gameOver := true, gameOverReason := "Black potted (reds cleared)" }
    else st
  else st

/-- Cue-ball block of `potBall` (sketch.js lines 726-732, notice text
omitted): a cue-ball pot clears the cue ball, entering the awaiting-
placement state. -/
def potBallCue (st : GameState) (b : Ball) : GameState :=
  if b.isCue then { st with cueBall := none } else st

/-- Effect of `potBall` on the game state (sketch.js lines 695-733, visual
effects omitted): the three blocks above in source order.  The potted ball
`b` is a colour or the cue ball whenever the black check can fire (reds
never carry the id "black"). -/
def potBall (st : GameState) (b : Ball) : GameState :=
  potBallCue (potBallBlack (potBallShot st b) b) b

/-- Embedding of `tryShoot` (sketch.js lines 791-816): rejected (state
unchanged, no impulse) unless a cue ball exists, it is resting, and no
ball is moving; on acceptance the shot counter is incremented, a fresh
shot record is opened, and a single impulse
`(cos aimAngle * 0.012 * power, sin aimAngle * 0.012 * power)` is applied
to the cue ball — the second component of the result. -/
def tryShoot (st : GameState) : GameState × Option (ℚ × ℚ) :=
  match st.cueBall with
  | none => (st, none)
  | some _ =>
    if !isCueBallResting st then (st, none)
    else if areAnyBallsMoving st then (st, none)
    else
      let fMag := 0.012 * st.aimPower
      let force := (st.aimDirX * fMag, st.aimDirY * fMag)
      ({ st with
          shotsTaken := st.shotsTaken + 1
          shotInProgress := true
          shotPottedThisShot := []
          shotFoulThisShot := false }, some force)

/-- Embedding of `finalizeShotIfSettled` (sketch.js lines 833-854): while
a shot is open and nothing moves, classify it (`Foul` if the cue ball was
potted, else `Potted` if the shot potted anything, else `Miss`), append it
to the log, trim the log to its last 60 entries, and close the shot. -/
def finalizeShotIfSettled (st : GameState) : GameState :=
  if !st.shotInProgress then st
  else if areAnyBallsMoving st then st
  else
    let outcome :=
      if st.shotFoulThisShot then Outcome.foul
      else if st.shotPottedThisShot.length > 0 then Outcome.pottedBall
      else Outcome.miss
    let log := st.shotLog ++ [{ n := st.shotsTaken, outcome := outcome,
                                potted := st.shotPottedThisShot }]
    let log := if log.length > 60 then log.drop (log.length - 60) else log
    { st with
        shotLog := log
        shotInProgress := false
        shotPottedThisShot := []
        shotFoulThisShot := false }

/-- Folding `potBall` over the sequence of pot events occurring during a
shot, in order. -/
def runPots (st : GameState) (events : List Ball) : GameState :=
  events.foldl potBall st

theorem potScanBall_idem (pockets : List Pocket) (pr : ℚ) (b : Ball) :
    potScanBall pockets pr (potScanBall pockets pr b) = potScanBall pockets pr b := by
  unfold potScanBall potBallFlags
  split_ifs <;> simp_all

theorem potBall_shotInProgress (st : GameState) (b : Ball) :
    (potBall st b).shotInProgress = st.shotInProgress := by
  unfold potBall potBallCue potBallBlack potBallShot
  split_ifs <;> rfl

theorem potBall_shotLog (st : GameState) (b : Ball) :
    (potBall st b).shotLog = st.shotLog := by
  unfold potBall potBallCue potBallBlack potBallShot
  split_ifs <;> rfl

theorem potBall_shotsTaken (st : GameState) (b : Ball) :
    (potBall st b).shotsTaken = st.shotsTaken := by
  unfold potBall potBallCue potBallBlack potBallShot
  split_ifs <;> rfl

theorem potBall_reds (st : GameState) (b : Ball) :
    (potBall st b).reds = st.reds := by
  unfold potBall potBallCue potBallBlack potBallShot
  split_ifs <;> rfl

theorem potBall_foul (st : GameState) (b : Ball) :
    (potBall st b).shotFoulThisShot
      = (st.shotFoulThisShot || (st.shotInProgress && b.isCue)) := by
  unfold potBall potBallCue potBallBlack potBallShot
  split_ifs <;> simp_all

theorem potBall_pottedList (st : GameState) (b : Ball) :
    (potBall st b).shotPottedThisShot
      = st.shotPottedThisShot
        ++ (if st.shotInProgress && !b.isCue then [(b.id, b.colour)] else []) := by
  unfold potBall potBallCue potBallBlack potBallShot
  split_ifs <;> simp_all

theorem potBall_gameOver_eq (st : GameState) (b : Ball) :
    (potBall st b).gameOver
      = (st.gameOver
          || (!b.isCue && b.id == "black"
              && decide (st.reds.length > 0) && st.reds.all fun r => r.potted)) := by
  unfold potBall potBallCue potBallBlack potBallShot
  split_ifs <;> simp_all

theorem runPots_nil (st : GameState) : runPots st [] = st := rfl

theorem runPots_cons (st : GameState) (e : Ball) (es : List Ball) :
    runPots st (e :: es) = runPots (potBall st e) es := rfl

theorem runPots_shotInProgress (events : List Ball) (st : GameState) :
    (runPots st events).shotInProgress = st.shotInProgress := by
  induction events generalizing st with
  | nil => rfl
  | cons e es ih => rw [runPots_cons, ih, potBall_shotInProgress]

theorem runPots_shotLog (events : List Ball) (st : GameState) :
    (runPots st events).shotLog = st.shotLog := by
  induction events generalizing st with
  | nil => rfl
  | cons e es ih => rw [runPots_cons, ih, potBall_shotLog]

theorem runPots_shotsTaken (events : List Ball) (st : GameState) :
    (runPots st events).shotsTaken = st.shotsTaken := by
  induction events generalizing st with
  | nil => rfl
  | cons e es ih => rw [runPots_cons, ih, potBall_shotsTaken]

theorem runPots_foul (events : List Ball) (st : GameState)
    (h : st.shotInProgress = true) :
    (runPots st events).shotFoulThisShot
      = (st.shotFoulThisShot || events.any fun b => b.isCue) := by
  induction events generalizing st with
  | nil => simp [runPots_nil]
  | cons e es ih =>
    rw [runPots_cons, ih (potBall st e) (by rw [potBall_shotInProgress, h]),
      potBall_foul, h]
    simp [Bool.or_assoc]

theorem runPots_pottedList (events : List Ball) (st : GameState)
    (h : st.shotInProgress = true) :
    (runPots st events).shotPottedThisShot
      = st.shotPottedThisShot
        ++ ((events.filter fun b => !b.isCue).map fun b => (b.id, b.colour)) := by
  induction events generalizing st with
  | nil => simp [runPots_nil]
  | cons e es ih =>
    rw [runPots_cons, ih (potBall st e) (by rw [potBall_shotInProgress, h]),
      potBall_pottedList, h]
    cases hc : e.isCue <;> simp [hc, List.filter_cons]

theorem getLast?_trimmed {α : Type} (l : List α) (a : α) :
    (if (l ++ [a]).length > 60 then (l ++ [a]).drop ((l ++ [a]).length - 60)
     else (l ++ [a])).getLast? = some a := by
  split_ifs with h
  · have hlen : (l ++ [a]).length - 60 ≤ l.length := by
      simp only [List.length_append, List.length_cons, List.length_nil] at h ⊢
      omega
    rw [List.drop_append_of_le_length hlen, List.getLast?_concat]
  · exact List.getLast?_concat l

/-- C5: a live ball within the capture radius (1.18 × pocketRadius) of
some pocket centre is marked potted with its body removed by the scan; a
ball already marked potted is left exactly as it is by any scan; and the
scan is idempotent, so a potted ball never returns to the live set. -/
theorem c5_potting_scan (pockets : List Pocket) (pocketR : ℚ) (balls : List Ball) :
    (∀ (i : ℕ) (b : Ball), balls[i]? = some b →
      (b.potted = false → ballCaptured pockets (pocketR * 1.18) b = true →
        (handlePotting pockets pocketR balls)[i]? = some (potBallFlags b) ∧
        (potBallFlags b).potted = true ∧ (potBallFlags b).inWorld = false) ∧
      (b.potted = true → (handlePotting pockets pocketR balls)[i]? = some b)) ∧
    handlePotting pockets pocketR (handlePotting pockets pocketR balls)
      = handlePotting pockets pocketR balls := by
  constructor
  · intro i b hb
    constructor
    · intro hlive hcap
      refine ⟨?_, rfl, rfl⟩
      simp [handlePotting, List.getElem?_map, hb, potScanBall, hlive, hcap]
    · intro hpot
      simp [handlePotting, List.getElem?_map, hb, potScanBall, hpot]
  · simp only [handlePotting, List.map_map]
    congr 1
    funext b
    exact potScanBall_idem pockets (pocketR * 1.18) b

/-- Fixture: the top-left pocket of a small test table, at the origin. -/
def cornerPocket : Pocket := { id := "TL", px := 0, py := 0 }

/-- Fixture: a live red ball one unit away from `cornerPocket`. -/
def liveRedNearPocket : Ball :=
  { id := "r1", colour := "#c1121f", isCue := false, isRed := true,
    px := 1, py := 1, vx := 0, vy := 0, r := 6, potted := false, inWorld := true }

/-- Fixture: a red ball that has already been potted. -/
def redPotEvent : Ball :=
  { id := "r1", colour := "#c1121f", isCue := false, isRed := true,
    px := 0, py := 0, vx := 0, vy := 0, r := 6, potted := true, inWorld := false }

/-- Fixture: the black ball as a pot event. -/
def blackPotEvent : Ball :=
  { id := "black", colour := "#222222", isCue := false, isRed := false,
    px := 0, py := 0, vx := 0, vy := 0, r := 6, potted := true, inWorld := false }

/-- Fixture: a cue ball fully at rest. -/
def restingCue : Ball :=
  { id := "cue", colour := "#f5f5f5", isCue := true, isRed := false,
    px := 100, py := 100, vx := 0, vy := 0, r := 6, potted := false, inWorld := true }

/-- Fixture: a cue ball with x-velocity exactly at the 0.08 threshold. -/
def edgeCue : Ball :=
  { id := "cue", colour := "#f5f5f5", isCue := true, isRed := false,
    px := 100, py := 100, vx := 0.08, vy := 0, r := 6, potted := false, inWorld := true }

/-- Fixture: an empty-table game state with nothing in progress. -/
def baseState : GameState :=
  { reds := [], colours := [], cueBall := none, shotsTaken := 0,
    shotInProgress := false, shotPottedThisShot := [], shotFoulThisShot := false,
    shotLog := [], gameOver := false, gameOverReason := "", aimPower := 0.35,
    aimDirX := 1, aimDirY := 0 }

/-- C5 witness: a concrete live ball near a pocket centre is potted by the
scan and its body removed. -/
theorem c5_witness :
    (handlePotting [cornerPocket] 10 [liveRedNearPocket])[0]?
      = some (potBallFlags liveRedNearPocket) := by
  exact (((c5_potting_scan [cornerPocket] 10 [liveRedNearPocket]).1
    0 _ rfl).1 rfl (by norm_num [ballCaptured, cornerPocket, liveRedNearPocket, dist2])).1

/-- C4: the claim says frame-over fires iff a black pot happens when every
red is already potted.  The code additionally requires at least one red to
exist (`reds.length > 0`): with an empty red list — reachable since the
clustered generator may omit balls — a black pot satisfies the claim's
condition vacuously, yet the frame does not end. -/
theorem c4_counterexample :
    (∀ r ∈ baseState.reds, r.potted = true) ∧ blackPotEvent.id = "black" ∧
    blackPotEvent.isCue = false ∧ baseState.gameOver = false ∧
    (potBall baseState blackPotEvent).gameOver = false := by
  exact ⟨by simp [baseState], rfl, rfl, rfl, rfl⟩

/-- C4 (amended): starting from a frame that is not over, a pot event sets
the frame-over flag iff the potted ball is the (non-cue) black, the red
list is nonempty, and every red is already potted; no other pot event sets
it, and a black pot with a live red does not set it. -/
theorem c4_frame_over_iff (st : GameState) (b : Ball) (hgo : st.gameOver = false) :
    ((potBall st b).gameOver = true ↔
      (b.isCue = false ∧ b.id = "black" ∧ st.reds ≠ [] ∧
        ∀ r ∈ st.reds, r.potted = true)) := by
  rw [potBall_gameOver_eq, hgo]
  simp [List.all_eq_true, List.length_pos, and_assoc]

/-- C4 witness: a black pot with a single, already-potted red ends the
frame. -/
theorem c4_witness :
    (potBall { baseState with reds := [redPotEvent] } blackPotEvent).gameOver = true := by
  exact (c4_frame_over_iff { baseState with reds := [redPotEvent] } blackPotEvent rfl).mpr
    ⟨rfl, rfl, by simp, by simp [redPotEvent]⟩

/-- C3: for every settled shot the recorded outcome is exactly one of
Foul / Potted / Miss: Foul iff the cue ball was potted during the shot
(regardless of other pots), otherwise Potted iff at least one non-cue
ball was potted, otherwise Miss. -/
theorem c3_shot_classification (st : GameState) (events : List Ball)
    (hopen : st.shotInProgress = true)
    (hfoul : st.shotFoulThisShot = false)
    (hpot : st.shotPottedThisShot = [])
    (hsettled : areAnyBallsMoving (runPots st events) = false) :
    ∃ e : ShotEntry,
      (finalizeShotIfSettled (runPots st events)).shotLog.getLast? = some e ∧
      (e.outcome = Outcome.foul ↔ events.any (fun b => b.isCue) = true) ∧
      (e.outcome = Outcome.pottedBall ↔
        (events.any (fun b => b.isCue) = false ∧
         events.any (fun b => !b.isCue) = true)) ∧
      (e.outcome = Outcome.miss ↔
        (events.any (fun b => b.isCue) = false ∧
         events.any (fun b => !b.isCue) = false)) := by
  have h1 : (runPots st events).shotInProgress = true := by
    rw [runPots_shotInProgress]; exact hopen
  have hf : (runPots st events).shotFoulThisShot = events.any (fun b => b.isCue) := by
    rw [runPots_foul events st hopen, hfoul, Bool.false_or]
  have hp : (runPots st events).shotPottedThisShot
      = ((events.filter fun b => !b.isCue).map fun b => (b.id, b.colour)) := by
    rw [runPots_pottedList events st hopen, hpot, List.nil_append]
  have hlen : ((runPots st events).shotPottedThisShot.length > 0) ↔
      events.any (fun b => !b.isCue) = true := by
    rw [hp]
    simp [List.length_pos, List.filter_eq_nil_iff, List.any_eq_true]
  refine ⟨{ n := (runPots st events).shotsTaken,
            outcome :=
              if (runPots st events).shotFoulThisShot then Outcome.foul
              else if (runPots st events).shotPottedThisShot.length > 0 then
                Outcome.pottedBall
              else Outcome.miss,
            potted := (runPots st events).shotPottedThisShot }, ?_, ?_, ?_, ?_⟩
  · simp only [finalizeShotIfSettled, h1, hsettled, Bool.not_true, Bool.false_eq_true,
      if_false, ite_false]
    exact getLast?_trimmed _ _
  · cases hcue : events.any (fun b => b.isCue) <;>
      cases hnon : events.any (fun b => !b.isCue) <;>
        simp [hf, hcue, hnon, hlen]
  · cases hcue : events.any (fun b => b.isCue) <;>
      cases hnon : events.any (fun b => !b.isCue) <;>
        simp [hf, hcue, hnon, hlen]
  · cases hcue : events.any (fun b => b.isCue) <;>
      cases hnon : events.any (fun b => !b.isCue) <;>
        simp [hf, hcue, hnon, hlen]

/-- C3 witness: a shot during which one non-cue ball is potted settles as
Potted. -/
theorem c3_witness :
    ∃ e : ShotEntry,
      (finalizeShotIfSettled (runPots { baseState with shotInProgress := true }
        [redPotEvent])).shotLog.getLast? = some e ∧
      e.outcome = Outcome.pottedBall := by
  obtain ⟨e, he, hfo, hpo, hmi⟩ :=
    c3_shot_classification { baseState with shotInProgress := true } [redPotEvent]
      rfl rfl rfl rfl
  exact ⟨e, he, hpo.mpr ⟨rfl, rfl⟩⟩

/-- C6: the fire command is a no-op unless a cue ball exists, it is at
rest, and no ball is moving; when accepted it increments the shot counter,
opens a new shot record, and applies exactly one impulse to the cue ball
of magnitude 0.012 × power in the aim direction. -/
theorem c6_tryShoot_spec (st : GameState)
    (hunit : st.aimDirX^2 + st.aimDirY^2 = 1) :
    ((st.cueBall = none ∨ isCueBallResting st = false ∨ areAnyBallsMoving st = true) →
        tryShoot st = (st, none)) ∧
    ((st.cueBall ≠ none ∧ isCueBallResting st = true ∧ areAnyBallsMoving st = false) →
        (tryShoot st).1.shotsTaken = st.shotsTaken + 1 ∧
        (tryShoot st).1.shotInProgress = true ∧
        (tryShoot st).1.shotPottedThisShot = [] ∧
        (tryShoot st).1.shotFoulThisShot = false ∧
        (tryShoot st).2
          = some (st.aimDirX * (0.012 * st.aimPower),
                  st.aimDirY * (0.012 * st.aimPower)) ∧
        ∀ fx fy : ℚ, (tryShoot st).2 = some (fx, fy) →
          fx^2 + fy^2 = (0.012 * st.aimPower)^2) := by
  constructor
  · rintro (hc | hr | hm)
    · simp [tryShoot, hc]
    · cases hcb : st.cueBall with
      | none => simp [tryShoot, hcb]
      | some cb => simp [tryShoot, hcb, hr]
    · cases hcb : st.cueBall with
      | none => simp [tryShoot, hcb]
      | some cb =>
        cases hres : isCueBallResting st with
        | false => simp [tryShoot, hcb, hres]
        | true => simp [tryShoot, hcb, hres, hm]
  · rintro ⟨hc, hr, hm⟩
    cases hcb : st.cueBall with
    | none => exact absurd hcb hc
    | some cb =>
      have htry : tryShoot st
          = ({ st with
                shotsTaken := st.shotsTaken + 1, shotInProgress := true,
                shotPottedThisShot := [], shotFoulThisShot := false },
             some (st.aimDirX * (0.012 * st.aimPower),
                   st.aimDirY * (0.012 * st.aimPower))) := by
        simp [tryShoot, hcb, hr, hm]
      refine ⟨by rw [htry], by rw [htry], by rw [htry], by rw [htry], by rw [htry], ?_⟩
      intro fx fy hfx
      rw [htry] at hfx
      have hx : fx = st.aimDirX * (0.012 * st.aimPower) := by
        have := Option.some.inj hfx
        exact (congrArg Prod.fst this).symm
      have hy : fy = st.aimDirY * (0.012 * st.aimPower) := by
        have := Option.some.inj hfx
        exact (congrArg Prod.snd this).symm
      rw [hx, hy]
      have hexp : (st.aimDirX * (0.012 * st.aimPower))^2
          + (st.aimDirY * (0.012 * st.aimPower))^2
          = (st.aimDirX^2 + st.aimDirY^2) * (0.012 * st.aimPower)^2 := by ring
      rw [hexp, hunit, one_mul]

/-- C6 witness: a resting cue ball with nothing moving fires, incrementing
the shot counter and producing the single impulse. -/
theorem c6_witness :
    (tryShoot { baseState with cueBall := some restingCue }).1.shotsTaken = 0 + 1 ∧
    (tryShoot { baseState with cueBall := some restingCue }).1.shotInProgress = true := by
  have h :=
    (c6_tryShoot_spec { baseState with cueBall := some restingCue }
      (by norm_num [baseState])).2
      ⟨by simp, by norm_num [isCueBallResting, restingCue],
       by norm_num [areAnyBallsMoving, allBalls, ballIsMoving, baseState, restingCue]⟩
  exact ⟨h.1, h.2.1⟩

/-- C10: when the largest velocity-component magnitude of the cue ball is
exactly 0.08, the moving test (strictly greater than 0.08) is false, the
resting test (both strictly below 0.08) is also false, and the fire
command is rejected. -/
theorem c10_exact_threshold (st : GameState) (cb : Ball)
    (hcb : st.cueBall = some cb) (hv : max |cb.vx| |cb.vy| = 0.08) :
    ballIsMoving cb = false ∧ isCueBallResting st = false ∧
      tryShoot st = (st, none) := by
  have hx : |cb.vx| ≤ 0.08 := (le_max_left _ _).trans (le_of_eq hv)
  have hy : |cb.vy| ≤ 0.08 := (le_max_right _ _).trans (le_of_eq hv)
  have hone : |cb.vx| = 0.08 ∨ |cb.vy| = 0.08 := by
    rcases max_choice |cb.vx| |cb.vy| with h | h
    · left; rw [← h, hv]
    · right; rw [← h, hv]
  have hmov : ballIsMoving cb = false := by
    unfold ballIsMoving
    split_ifs with h
    · rfl
    · simp only [Bool.or_eq_false_iff, decide_eq_false_iff_not, not_lt]
      exact ⟨hx, hy⟩
  have hrest : isCueBallResting st = false := by
    unfold isCueBallResting
    rw [hcb]
    rcases hone with h | h
    · simp [h]
    · simp [h]
  exact ⟨hmov, hrest, by simp [tryShoot, hcb, hrest]⟩

/-- C10 witness: a cue ball moving at exactly (0.08, 0) is neither moving
nor resting, and firing is rejected. -/
theorem c10_witness :
    tryShoot { baseState with cueBall := some edgeCue }
      = ({ baseState with cueBall := some edgeCue }, none) := by
  exact (c10_exact_threshold { baseState with cueBall := some edgeCue } edgeCue rfl
    (by rw [show edgeCue.vx = 0.08 from rfl, show edgeCue.vy = 0 from rfl, abs_zero,
          abs_of_nonneg (by norm_num : (0:ℚ) ≤ 0.08)]
        exact max_eq_left (by norm_num))).2.2

end Snooker

namespace Snooker

/-- One wall hit from `rayRectHit` (sketch.js lines 1336-1373): parametric
distance, hit point, and the hit edge's outward normal. -/
structure WallHit where
  t : ℚ
  x : ℚ
  y : ℚ
  nx : ℚ
  ny : ℚ
  deriving Repr, DecidableEq

/-- Candidate update of the running best hit: the source keeps `bestT`
starting at Infinity and accepts a candidate when its guard holds and
`cand.t < bestT` (an absent best accepts any guarded candidate). -/
def betterHit (best : Option WallHit) (ok : Bool) (cand : WallHit) : Option WallHit :=
  if ok && (match best with | none => true | some b => decide (cand.t < b.t)) then some cand
  else best

/-- Embedding of `rayRectHit` (sketch.js lines 1336-1373): slab tests of
the four inset-surface edges in source order (minX, maxX, minY, maxY),
each guarded by `t > 0.0001` and the hit point lying within the edge's
extent, skipping an axis whose direction component has magnitude at most
1e-6; the smallest parametric distance wins. -/
def rayRectHit (ox oy dx dy minX minY maxX maxY : ℚ) : Option WallHit :=
  let b0 : Option WallHit := none
  let b1 :=
    if |dx| > 1/1000000 then
      let tx1 := (minX - ox) / dx
      let y1 := oy + tx1 * dy
      let c1 := betterHit b0
        (decide (tx1 > 0.0001) && decide (y1 ≥ minY) && decide (y1 ≤ maxY))
        { t := tx1, x := minX, y := y1, nx := -1, ny := 0 }
      let tx2 := (maxX - ox) / dx
      let y2 := oy + tx2 * dy
      betterHit c1
        (decide (tx2 > 0.0001) && decide (y2 ≥ minY) && decide (y2 ≤ maxY))
        { t := tx2, x := maxX, y := y2, nx := 1, ny := 0 }
    else b0
  if |dy| > 1/1000000 then
    let ty1 := (minY - oy) / dy
    let x1 := ox + ty1 * dx
    let c3 := betterHit b1
      (decide (ty1 > 0.0001) && decide (x1 ≥ minX) && decide (x1 ≤ maxX))
      { t := ty1, x := x1, y := minY, nx := 0, ny := -1 }
    let ty2 := (maxY - oy) / dy
    let x2 := ox + ty2 * dx
    betterHit c3
      (decide (ty2 > 0.0001) && decide (x2 ≥ minX) && decide (x2 ≤ maxX))
      { t := ty2, x := x2, y := maxY, nx := 0, ny := 1 }
  else b1

/-- Embedding of the cushion reflection applied by the predictor
(sketch.js lines 1281-1284): `d' = d - 2 (d . n) n`. -/
def reflect (dx dy nx ny : ℚ) : ℚ × ℚ :=
  let dot := dx * nx + dy * ny
  (dx - 2 * dot * nx, dy - 2 * dot * ny)

theorem betterHit_norm (best : Option WallHit) (ok : Bool) (cand : WallHit)
    (hb : ∀ h : WallHit, best = some h → h.nx ^ 2 + h.ny ^ 2 = 1)
    (hc : cand.nx ^ 2 + cand.ny ^ 2 = 1) :
    ∀ h : WallHit, betterHit best ok cand = some h → h.nx ^ 2 + h.ny ^ 2 = 1 := by
  intro h hh
  unfold betterHit at hh
  split_ifs at hh
  · cases hh
    exact hc
  · exact hb h hh

theorem rayRectHit_norm (ox oy dx dy minX minY maxX maxY : ℚ) (h : WallHit)
    (hh : rayRectHit ox oy dx dy minX minY maxX maxY = some h) :
    h.nx ^ 2 + h.ny ^ 2 = 1 := by
  have h0 : ∀ h' : WallHit, (none : Option WallHit) = some h' →
      h'.nx ^ 2 + h'.ny ^ 2 = 1 := by
    intro h' hx
    cases hx
  simp only [rayRectHit] at hh
  split_ifs at hh <;>
    first
      | exact betterHit_norm _ _ _
          (betterHit_norm _ _ _
            (betterHit_norm _ _ _ (betterHit_norm _ _ _ h0 (by norm_num)) (by norm_num))
            (by norm_num)) (by norm_num) h hh
      | exact betterHit_norm _ _ _ (betterHit_norm _ _ _ h0 (by norm_num)) (by norm_num) h hh

/-- C8: for every wall hit returned by the trajectory predictor's
ray-rectangle test, reflecting the incoming direction about the hit
normal flips the normal component (`d'.n = -(d.n)`) and leaves the
tangential component unchanged. -/
theorem c8_reflection (ox oy dx dy minX minY maxX maxY : ℚ) (h : WallHit)
    (hh : rayRectHit ox oy dx dy minX minY maxX maxY = some h) :
    (reflect dx dy h.nx h.ny).1 * h.nx + (reflect dx dy h.nx h.ny).2 * h.ny
      = -(dx * h.nx + dy * h.ny) ∧
    (reflect dx dy h.nx h.ny).1
        - ((reflect dx dy h.nx h.ny).1 * h.nx + (reflect dx dy h.nx h.ny).2 * h.ny) * h.nx
      = dx - (dx * h.nx + dy * h.ny) * h.nx ∧
    (reflect dx dy h.nx h.ny).2
        - ((reflect dx dy h.nx h.ny).1 * h.nx + (reflect dx dy h.nx h.ny).2 * h.ny) * h.ny
      = dy - (dx * h.nx + dy * h.ny) * h.ny := by
  have hn := rayRectHit_norm ox oy dx dy minX minY maxX maxY h hh
  unfold reflect
  refine ⟨?_, ?_, ?_⟩
  · linear_combination (-(2:ℚ) * (dx * h.nx + dy * h.ny)) * hn
  · linear_combination ((2:ℚ) * (dx * h.nx + dy * h.ny) * h.nx) * hn
  · linear_combination ((2:ℚ) * (dx * h.nx + dy * h.ny) * h.ny) * hn

/-- C8 witness: a ray fired rightwards from the centre of a 10 × 10 box
hits the right wall; the reflected direction's normal component is the
negation of the incoming one. -/
theorem c8_witness :
    rayRectHit 5 5 1 0 0 0 10 10
        = some { t := 5, x := 10, y := 5, nx := 1, ny := 0 } ∧
      (reflect 1 0 (1:ℚ) 0).1 * 1 + (reflect 1 0 (1:ℚ) 0).2 * 0
        = -((1:ℚ) * 1 + 0 * 0) := by
  have hr : rayRectHit 5 5 1 0 0 0 10 10
      = some { t := 5, x := 10, y := 5, nx := 1, ny := 0 } := by
    norm_num [rayRectHit, betterHit]
  exact ⟨hr, (c8_reflection 5 5 1 0 0 0 10 10 _ hr).1⟩

/-- Predictor configuration (sketch.js lines 97-100). -/
def predictorMaxBounces : ℕ := 3

/-- Result of the predictor loop: the polyline vertices, the optional ball
terminal, and `bounces`, the number of cushion reflections applied (ghost
data recording how often the wall branch ran). -/
structure TrajOut where
  points : List (ℚ × ℚ)
  hitBall : Option Ball
  bounces : ℕ
  deriving Repr

/-- Best ball intersection of the loop body (sketch.js lines 1252-1260):
fold over the targets keeping the smallest strictly positive intersection
distance produced by the intersection function `f`. -/
def bestBallHit (f : Ball → Option ℚ) (targets : List Ball) : Option (ℚ × Ball) :=
  targets.foldl
    (fun acc b =>
      match f b with
      | none => acc
      | some t =>
        if decide (t > 0)
            && (match acc with | none => true | some a => decide (t < a.1)) then
          some (t, b)
        else acc)
    none

/-- The predictor bounce loop (sketch.js lines 1249-1289).  The source
runs `for (bounce = 0; bounce <= predictor.maxBounces; bounce++)`, i.e.
`maxBounces + 1` iterations; `fuel` counts the remaining iterations.  Per
iteration: if the nearest ball hit precedes the wall hit, append the
contact point and stop; with no wall hit, stop; otherwise append the wall
contact, reflect the direction (sketch.js lines 1281-1284) and advance the
origin `eps = 0.5` along the new direction.  `ballT` is the ray-circle
intersection oracle standing for `rayCircleHit` (sketch.js lines
1316-1334), whose square root is irrational in general; every theorem
below holds for an arbitrary oracle, hence for the source's function. -/
def trajLoop (ballT : ℚ → ℚ → ℚ → ℚ → Ball → Option ℚ)
    (minX minY maxX maxY : ℚ) (targets : List Ball) :
    ℕ → ℚ → ℚ → ℚ → ℚ → List (ℚ × ℚ) → TrajOut
  | 0, _, _, _, _, pts => { points := pts, hitBall := none, bounces := 0 }
  | fuel + 1, ox, oy, dx, dy, pts =>
    let wallHit := rayRectHit ox oy dx dy minX minY maxX maxY
    let best := bestBallHit (ballT ox oy dx dy) targets
    let wallStep : WallHit → TrajOut := fun w =>
      let d := reflect dx dy w.nx w.ny
      let out := trajLoop ballT minX minY maxX maxY targets fuel
        (w.x + d.1 * 0.5) (w.y + d.2 * 0.5) d.1 d.2 (pts ++ [(w.x, w.y)])
      { out with bounces := out.bounces + 1 }
    match best, wallHit with
    | some (t, b), some w =>
      if t < w.t then
        { points := pts ++ [(ox + dx * t, oy + dy * t)], hitBall := some b, bounces := 0 }
      else wallStep w
    | some (t, b), none =>
      { points := pts ++ [(ox + dx * t, oy + dy * t)], hitBall := some b, bounces := 0 }
    | none, some w => wallStep w
    | none, none => { points := pts, hitBall := none, bounces := 0 }

/-- Embedding of the path construction of `drawTrajectoryPredictor`
(sketch.js lines 1221-1289): bounds are the playing surface inset by the
ball radius, the start point is clamped into the bounds (p5 `constrain`),
the targets are the live non-cue balls `[...reds, ...colours]` filtered by
`potted`, and the loop runs for `bounce = 0 .. maxBounces`.  `(dx, dy)` is
`(cos angle, sin angle)`, already a unit vector, so the source's
re-normalisation divides by 1 and is omitted here. -/
def drawTrajectoryPredictor (g : TableGeom) (reds colours : List Ball)
    (ballT : ℚ → ℚ → ℚ → ℚ → Ball → Option ℚ)
    (startX startY dx dy : ℚ) : TrajOut :=
  let minX := g.surfX + g.ballR
  let maxX := g.surfX + g.surfW - g.ballR
  let minY := g.surfY + g.ballR
  let maxY := g.surfY + g.surfH - g.ballR
  let ox := max (min startX maxX) minX
  let oy := max (min startY maxY) minY
  let targets := (reds ++ colours).filter fun b => !b.potted
  trajLoop ballT minX minY maxX maxY targets (predictorMaxBounces + 1)
    ox oy dx dy [(ox, oy)]

theorem trajLoop_bounces_le (ballT : ℚ → ℚ → ℚ → ℚ → Ball → Option ℚ)
    (minX minY maxX maxY : ℚ) (targets : List Ball) (fuel : ℕ) :
    ∀ (ox oy dx dy : ℚ) (pts : List (ℚ × ℚ)),
      (trajLoop ballT minX minY maxX maxY targets fuel ox oy dx dy pts).bounces ≤ fuel := by
  induction fuel with
  | zero =>
    intro ox oy dx dy pts
    simp [trajLoop]
  | succ n ih =>
    intro ox oy dx dy pts
    simp only [trajLoop]
    cases hb : bestBallHit (ballT ox oy dx dy) targets with
    | none =>
      cases hw : rayRectHit ox oy dx dy minX minY maxX maxY with
      | none => simp
      | some w => exact Nat.succ_le_succ (ih _ _ _ _ _)
    | some tb =>
      cases hw : rayRectHit ox oy dx dy minX minY maxX maxY with
      | none => simp
      | some w =>
        obtain ⟨t, b⟩ := tb
        dsimp only
        split_ifs
        · simp
        · exact Nat.succ_le_succ (ih _ _ _ _ _)

/-- C9 (amended): the predictor's bounce loop runs at most
`maxBounces + 1 = 4` iterations, so the predicted path contains at most 4
cushion reflections before the computation stops (the claim's bound of 3
is exceeded by one: the loop condition is `bounce <= maxBounces`). -/
theorem c9_bounce_bound (g : TableGeom) (reds colours : List Ball)
    (ballT : ℚ → ℚ → ℚ → ℚ → Ball → Option ℚ) (startX startY dx dy : ℚ) :
    (drawTrajectoryPredictor g reds colours ballT startX startY dx dy).bounces
      ≤ predictorMaxBounces + 1 := by
  unfold drawTrajectoryPredictor
  exact trajLoop_bounces_le _ _ _ _ _ _ _ _ _ _ _ _

/-- C9 counterexample: on the outer-length-900 table, a ray fired straight
down from (100, 100) with no target balls reflects off the cushions 4
times — one more than the claimed bound of 3 — because the loop runs for
`bounce = 0, 1, 2, 3`. -/
theorem c9_counterexample :
    (drawTrajectoryPredictor (rebuildTableGeometry 0 0 900) [] []
        (fun _ _ _ _ _ => none) 100 100 0 1).bounces = 4 ∧
    ¬((drawTrajectoryPredictor (rebuildTableGeometry 0 0 900) [] []
        (fun _ _ _ _ _ => none) 100 100 0 1).bounces ≤ 3) := by
  have h : (drawTrajectoryPredictor (rebuildTableGeometry 0 0 900) [] []
      (fun _ _ _ _ _ => none) 100 100 0 1).bounces = 4 := by
    norm_num [drawTrajectoryPredictor, rebuildTableGeometry, predictorMaxBounces,
      trajLoop, bestBallHit, rayRectHit, betterHit, reflect]
  exact ⟨h, by rw [h]; norm_num⟩

end Snooker

namespace Snooker

/-- Embedding of `pointInSurface` (sketch.js lines 1017-1025): the point
lies inside the playing surface inset by `marginR` on all sides. -/
def pointInSurface (g : TableGeom) (px py marginR : ℚ) : Bool :=
  decide (px ≥ g.surfX + marginR) && decide (px ≤ g.surfX + g.surfW - marginR) &&
  decide (py ≥ g.surfY + marginR) && decide (py ≤ g.surfY + g.surfH - marginR)

/-- Embedding of `nonOverlapping` (sketch.js lines 1027-1038): the
candidate centre `(x, y)` must be at distance at least `r * 2.05` from
every live ball among `listA ++ listB` and the cue ball when present
(`dist < minDist` embedded as the squared comparison). -/
def nonOverlapping (x y r : ℚ) (listA listB : List Ball) (cue : Option Ball) : Bool :=
  (listA ++ listB ++ cue.toList).all fun b =>
    b.potted || decide (dist2 x y b.px b.py ≥ (r * 2.05)^2)

/-- A red ball as built by the layout generators through `createBall`
(sketch.js line 520; the source gives reds a random `ball_N` id, which no
claim reads, so a fixed id is used). -/
def mkRedBall (x y r : ℚ) : Ball :=
  { id := "red", colour := "#c1121f", isCue := false, isRed := true,
    px := x, py := y, vx := 0, vy := 0, r := r, potted := false, inWorld := true }

/-- A colour ball on its spot as built by `createColouredBalls` through
`createBall` (sketch.js lines 490-501). -/
def mkSpotBall (id colour : String) (p : ℚ × ℚ) (r : ℚ) : Ball :=
  { id := id, colour := colour, isCue := false, isRed := false,
    px := p.1, py := p.2, vx := 0, vy := 0, r := r, potted := false, inWorld := true }

/-- Embedding of `createColouredBalls` (sketch.js lines 490-501). -/
def createColouredBalls (g : TableGeom) : List Ball :=
  [ mkSpotBall "yellow" "#f6e85d" g.spotYellow g.ballR
  , mkSpotBall "green" "#2ecc71" g.spotGreen g.ballR
  , mkSpotBall "brown" "#8e5a2b" g.spotBrown g.ballR
  , mkSpotBall "blue" "#2e6cf6" g.spotBlue g.ballR
  , mkSpotBall "pink" "#f5a3c7" g.spotPink g.ballR
  , mkSpotBall "black" "#222222" g.spotBlack g.ballR ]

/-- Embedding of `createRedsStandardTriangle` (sketch.js lines 503-525):
five rows, apex two ball diameters beyond the pink spot, column spacing
`0.98 d`, row spacing `1.05 d`. -/
def createRedsStandardTriangle (g : TableGeom) : List Ball :=
  let apexX := g.spotPink.1 + g.ballD * 2
  let centerY := g.surfY + g.surfH / 2
  let xStep := g.ballD * 0.98
  let yStep := g.ballD * 1.05
  (List.range 5).flatMap fun (row : ℕ) =>
    (List.range (row + 1)).map fun (col : ℕ) =>
      mkRedBall (apexX + (row : ℚ) * xStep)
        (centerY + ((col : ℚ) - (row : ℚ) / 2) * yStep) g.ballR

/-- The rejection-sampling inner loop of `createRedsClusteredRandom`
(sketch.js lines 544-554): up to `fuel` proposals are drawn (the source
draws a random cluster and a random point in its spread; that randomness
is modelled by the unconstrained proposal oracle `props`, so every theorem
holds for every realisation of the source's draws); the first proposal
inside the surface and non-overlapping wins. -/
def tryPlace (g : TableGeom) (placed colours : List Ball) (cue : Option Ball)
    (props : ℕ → ℚ × ℚ) : ℕ → ℕ → Option (ℚ × ℚ)
  | _, 0 => none
  | k, fuel + 1 =>
    let x := (props k).1
    let y := (props k).2
    if pointInSurface g x y g.ballR && nonOverlapping x y g.ballR placed colours cue then
      some (x, y)
    else tryPlace g placed colours cue props (k + 1) fuel

/-- Embedding of `createRedsClusteredRandom` (sketch.js lines 527-566):
for each of 15 reds, 300 rejection-sampling attempts; on failure, a
deterministic fallback slot near the pink spot, itself subject to the same
in-surface and overlap checks, and the ball is omitted if that also
fails.  `props i a` is the proposal for red `i`, attempt `a`. -/
def createRedsClusteredRandom (g : TableGeom) (colours : List Ball)
    (cue : Option Ball) (props : ℕ → ℕ → ℚ × ℚ) : List Ball :=
  (List.range 15).foldl
    (fun (list : List Ball) (i : ℕ) =>
      match tryPlace g list colours cue (props i) 0 300 with
      | some p => list ++ [mkRedBall p.1 p.2 g.ballR]
      | none =>
        let fx := g.spotPink.1 + g.ballD * 2 + ((i % 5 : ℕ) : ℚ) * g.ballD * 1.1
        let fy := (g.surfY + g.surfH / 2) + (((i / 5 : ℕ) : ℚ) - 1) * g.ballD * 1.2
        if pointInSurface g fx fy g.ballR && nonOverlapping fx fy g.ballR list colours cue then
          list ++ [mkRedBall fx fy g.ballR]
        else list)
    []

/-- Embedding of `createRedsPracticeLayout` (sketch.js lines 568-591): a
3 × 5 grid with `2.2 d` spacing, each cell accepted only if in-surface and
non-overlapping; failing cells are skipped. -/
def createRedsPracticeLayout (g : TableGeom) (colours : List Ball)
    (cue : Option Ball) : List Ball :=
  let startX := g.surfX + g.surfW * 0.60
  let startY := g.surfY + g.surfH * 0.22
  (List.range 3).foldl
    (fun (listR : List Ball) (row : ℕ) =>
      (List.range 5).foldl
        (fun (list : List Ball) (col : ℕ) =>
          let x := startX + (col : ℚ) * g.ballD * 2.2
          let y := startY + (row : ℚ) * g.ballD * 2.2
          if pointInSurface g x y g.ballR && nonOverlapping x y g.ballR list colours cue then
            list ++ [mkRedBall x y g.ballR]
          else list)
        listR)
    []

/-- The ball population built by `setMode` (sketch.js lines 418-434): the
cue ball is cleared before generation (`clearBallsOnly`), the colours are
created on their spots, then the reds by the strategy for the mode; the
layout is the union reds ++ colours with no cue ball present. -/
def layoutForMode (m : ℕ) (g : TableGeom) (props : ℕ → ℕ → ℚ × ℚ) : List Ball :=
  let colours := createColouredBalls g
  let redBalls :=
    if m = 1 then createRedsStandardTriangle g
    else if m = 2 then createRedsClusteredRandom g colours none props
    else if m = 3 then createRedsPracticeLayout g colours none
    else []
  redBalls ++ colours

/-- Separation predicate between two balls: centre distance at least
`minD2` when squared. -/
def sep2 (minD2 : ℚ) (a b : Ball) : Prop :=
  dist2 a.px a.py b.px b.py ≥ minD2

theorem dist2_comm (ax ay bx byy : ℚ) : dist2 ax ay bx byy = dist2 bx byy ax ay := by
  unfold dist2
  ring

theorem sep2_comm (m : ℚ) (a b : Ball) (h : sep2 m a b) : sep2 m b a := by
  unfold sep2 at h ⊢
  rw [dist2_comm]
  exact h

theorem nonOverlapping_sep (x y r : ℚ) (listA listB : List Ball) (cue : Option Ball)
    (hno : nonOverlapping x y r listA listB cue = true) (b : Ball)
    (hb : b ∈ listA ++ listB ++ cue.toList) (hlive : b.potted = false) :
    dist2 x y b.px b.py ≥ (r * 2.05)^2 := by
  have h := List.all_eq_true.mp hno b hb
  rw [hlive] at h
  simpa using h

theorem pairwise_append_one (m : ℚ) (list colours : List Ball) (b : Ball)
    (h : List.Pairwise (sep2 m) (list ++ colours))
    (hb : ∀ c ∈ list ++ colours, sep2 m b c) :
    List.Pairwise (sep2 m) ((list ++ [b]) ++ colours) := by
  rw [List.pairwise_append] at h ⊢
  obtain ⟨h1, h2, h12⟩ := h
  refine ⟨?_, h2, ?_⟩
  · rw [List.pairwise_append]
    refine ⟨h1, List.pairwise_singleton _ _, ?_⟩
    intro a ha c hc
    rw [List.mem_singleton] at hc
    rw [hc]
    exact sep2_comm m b a (hb a (List.mem_append_left _ ha))
  · intro a ha c hc
    rcases List.mem_append.mp ha with ha' | ha'
    · exact h12 a ha' c hc
    · rw [List.mem_singleton] at ha'
      subst ha'
      exact hb c (List.mem_append_right _ hc)

theorem foldl_preserves {α σ : Type} (P : σ → Prop) (f : σ → α → σ)
    (hstep : ∀ s a, P s → P (f s a)) :
    ∀ (l : List α) (s : σ), P s → P (l.foldl f s) := by
  intro l
  induction l with
  | nil => intro s hs; exact hs
  | cons a l ih => intro s hs; exact ih (f s a) (hstep s a hs)

theorem tryPlace_sound (g : TableGeom) (placed colours : List Ball) (cue : Option Ball)
    (props : ℕ → ℚ × ℚ) :
    ∀ (fuel k : ℕ) (p : ℚ × ℚ),
      tryPlace g placed colours cue props k fuel = some p →
      nonOverlapping p.1 p.2 g.ballR placed colours cue = true := by
  intro fuel
  induction fuel with
  | zero =>
    intro k p hp
    simp [tryPlace] at hp
  | succ n ih =>
    intro k p hp
    simp only [tryPlace] at hp
    split_ifs at hp with hcond
    · cases hp
      exact (Bool.and_eq_true _ _ ▸ hcond).2
    · exact ih (k + 1) p hp

theorem colours_live (g : TableGeom) :
    ∀ b ∈ createColouredBalls g, b.potted = false := by
  intro b hb
  fin_cases hb <;> rfl

theorem guarded_append (g : TableGeom) (colours : List Ball)
    (hcl : ∀ b ∈ colours, b.potted = false)
    (list : List Ball) (x y : ℚ)
    (hno : nonOverlapping x y g.ballR list colours none = true)
    (hP : List.Pairwise (sep2 ((g.ballR * 2.05)^2)) (list ++ colours)
          ∧ ∀ b ∈ list, b.potted = false) :
    List.Pairwise (sep2 ((g.ballR * 2.05)^2))
        ((list ++ [mkRedBall x y g.ballR]) ++ colours)
      ∧ ∀ b ∈ list ++ [mkRedBall x y g.ballR], b.potted = false := by
  obtain ⟨hpw, hlive⟩ := hP
  constructor
  · apply pairwise_append_one _ _ _ _ hpw
    intro c hc
    have hcmem : c ∈ list ++ colours ++ (none : Option Ball).toList := by
      simpa using hc
    have hclive : c.potted = false := by
      rcases List.mem_append.mp hc with h | h
      · exact hlive c h
      · exact hcl c h
    exact nonOverlapping_sep x y g.ballR list colours none hno c hcmem hclive
  · intro b hb
    rcases List.mem_append.mp hb with h | h
    · exact hlive b h
    · rw [List.mem_singleton] at h
      subst h
      rfl

/-- Affine interpretation of a coefficient pair scaled by 360000: every
standard-layout coordinate equals the table corner plus a fixed rational
multiple of the outer length. -/
def affineZ (x y L : ℚ) (c : ℤ × ℤ) : ℚ × ℚ :=
  (x + (c.1 : ℚ) / 360000 * L, y + (c.2 : ℚ) / 360000 * L)

/-- The 15 standard-triangle red positions in 360000ths of the outer
length, relative to the table corner: apex at 276000 (pink + two
diameters), column step 4900 (0.98 d), half row step 2625. -/
def redCoeffsZ : List (ℤ × ℤ) :=
  (List.range 5).flatMap fun row =>
    (List.range (row + 1)).map fun col =>
      (276000 + (row : ℤ) * 4900, 90000 + (2 * (col : ℤ) - (row : ℤ)) * 2625)

/-- The six colour-spot positions in 360000ths of the outer length, in the
order yellow, green, brown, blue, pink, black. -/
def colourCoeffsZ : List (ℤ × ℤ) :=
  [(79208, 117060), (79208, 62940), (79208, 90000), (180000, 90000),
   (266000, 90000), (321040, 90000)]

theorem stdCoeffs_pairwise :
    List.Pairwise
      (fun a b : ℤ × ℤ => (a.1 - b.1)^2 + (a.2 - b.2)^2 ≥ 5125^2)
      (redCoeffsZ ++ colourCoeffsZ) := by
  decide

theorem affineZ_sep (x y L : ℚ) (a b : ℤ × ℤ)
    (h : (a.1 - b.1)^2 + (a.2 - b.2)^2 ≥ 5125^2) :
    dist2 (affineZ x y L a).1 (affineZ x y L a).2
        (affineZ x y L b).1 (affineZ x y L b).2
      ≥ ((L / 2 / 36 / 2) * 2.05)^2 := by
  have hq : ((a.1 : ℚ) - (b.1 : ℚ))^2 + ((a.2 : ℚ) - (b.2 : ℚ))^2 ≥ (5125 : ℚ)^2 := by
    exact_mod_cast h
  have hL2 : (0:ℚ) ≤ (L / 360000)^2 := sq_nonneg _
  have heq : dist2 (affineZ x y L a).1 (affineZ x y L a).2
      (affineZ x y L b).1 (affineZ x y L b).2
      = (((a.1:ℚ) - (b.1:ℚ))^2 + ((a.2:ℚ) - (b.2:ℚ))^2) * (L / 360000)^2 := by
    unfold affineZ dist2
    ring
  have hrhs : ((L / 2 / 36 / 2) * 2.05)^2 = (5125:ℚ)^2 * (L / 360000)^2 := by
    ring_nf
  rw [heq, hrhs]
  exact mul_le_mul_of_nonneg_right hq hL2

theorem pairwise_of_map {α β : Type} (f : α → β) (R : β → β → Prop) (l : List α)
    (h : List.Pairwise R (l.map f)) : List.Pairwise (fun a b => R (f a) (f b)) l :=
  List.pairwise_map.mp h

set_option maxHeartbeats 1000000 in
theorem pairwise_from_coeffs (x y L : ℚ) (balls : List Ball) (cs : List (ℤ × ℤ))
    (hpos : balls.map (fun b => (b.px, b.py)) = cs.map (affineZ x y L))
    (hcs : List.Pairwise
      (fun a b : ℤ × ℤ => (a.1 - b.1)^2 + (a.2 - b.2)^2 ≥ 5125^2) cs) :
    List.Pairwise (sep2 (((L / 2 / 36 / 2) * 2.05)^2)) balls := by
  have h1 : List.Pairwise
      (fun p q : ℚ × ℚ => dist2 p.1 p.2 q.1 q.2 ≥ ((L / 2 / 36 / 2) * 2.05)^2)
      (cs.map (affineZ x y L)) :=
    List.pairwise_map.mpr (hcs.imp fun hab => affineZ_sep x y L _ _ hab)
  rw [← hpos] at h1
  have h2 := pairwise_of_map (fun b => (b.px, b.py))
    (fun p q => dist2 p.1 p.2 q.1 q.2 ≥ ((L / 2 / 36 / 2) * 2.05)^2) balls h1
  exact h2.imp fun hab => hab

theorem colours_pos (x y L : ℚ) :
    (createColouredBalls (rebuildTableGeometry x y L)).map (fun b => (b.px, b.py))
      = colourCoeffsZ.map (affineZ x y L) := by
  simp only [createColouredBalls, mkSpotBall, rebuildTableGeometry, colourCoeffsZ,
    affineZ, List.map_cons, List.map_nil, List.cons.injEq, Prod.mk.injEq, and_true]
  norm_num
  repeat' apply And.intro
  all_goals ring

theorem reds_pos (x y L : ℚ) :
    (createRedsStandardTriangle (rebuildTableGeometry x y L)).map (fun b => (b.px, b.py))
      = redCoeffsZ.map (affineZ x y L) := by
  have h5 : List.range 5 = [0, 1, 2, 3, 4] := rfl
  have h1 : List.range (0 + 1) = [0] := rfl
  have h2 : List.range (1 + 1) = [0, 1] := rfl
  have h3 : List.range (2 + 1) = [0, 1, 2] := rfl
  have h4 : List.range (3 + 1) = [0, 1, 2, 3] := rfl
  have h5' : List.range (4 + 1) = [0, 1, 2, 3, 4] := rfl
  simp only [createRedsStandardTriangle, redCoeffsZ, h5, h1, h2, h3, h4, h5',
    List.flatMap_cons, List.flatMap_nil, List.map_cons, List.map_nil,
    List.map_append, List.append_nil, mkRedBall, rebuildTableGeometry, affineZ,
    List.cons.injEq, Prod.mk.injEq, and_true]
  norm_num
  repeat' apply And.intro
  all_goals simp only [affineZ, Prod.mk.injEq]
  all_goals constructor
  all_goals push_cast
  all_goals ring

theorem standard_pairwise (x y L : ℚ) :
    List.Pairwise (sep2 (((rebuildTableGeometry x y L).ballR * 2.05)^2))
      (createRedsStandardTriangle (rebuildTableGeometry x y L)
        ++ createColouredBalls (rebuildTableGeometry x y L)) := by
  have hb : (rebuildTableGeometry x y L).ballR = L / 2 / 36 / 2 := rfl
  rw [hb]
  apply pairwise_from_coeffs x y L _ (redCoeffsZ ++ colourCoeffsZ)
  · rw [List.map_append, List.map_append, reds_pos, colours_pos]
  · exact stdCoeffs_pairwise

theorem colours_pairwise (x y L : ℚ) :
    List.Pairwise (sep2 (((rebuildTableGeometry x y L).ballR * 2.05)^2))
      (createColouredBalls (rebuildTableGeometry x y L)) := by
  have hb : (rebuildTableGeometry x y L).ballR = L / 2 / 36 / 2 := rfl
  rw [hb]
  exact pairwise_from_coeffs x y L _ colourCoeffsZ (colours_pos x y L) (by decide)

theorem clustered_pairwise (g : TableGeom) (colours : List Ball)
    (hcl : ∀ b ∈ colours, b.potted = false)
    (hcolpw : List.Pairwise (sep2 ((g.ballR * 2.05)^2)) colours)
    (props : ℕ → ℕ → ℚ × ℚ) :
    List.Pairwise (sep2 ((g.ballR * 2.05)^2))
      (createRedsClusteredRandom g colours none props ++ colours) := by
  unfold createRedsClusteredRandom
  refine (foldl_preserves
    (fun list => List.Pairwise (sep2 ((g.ballR * 2.05)^2)) (list ++ colours)
      ∧ ∀ b ∈ list, b.potted = false)
    _ ?_ (List.range 15) [] ⟨by simpa using hcolpw, by simp⟩).1
  intro s i hP
  dsimp only
  cases htp : tryPlace g s colours none (props i) 0 300 with
  | some p =>
    exact guarded_append g colours hcl s p.1 p.2
      (tryPlace_sound g s colours none (props i) 300 0 p htp) hP
  | none =>
    split_ifs with hcond
    · exact guarded_append g colours hcl s _ _ (Bool.and_eq_true _ _ ▸ hcond).2 hP
    · exact hP

theorem practice_pairwise (g : TableGeom) (colours : List Ball)
    (hcl : ∀ b ∈ colours, b.potted = false)
    (hcolpw : List.Pairwise (sep2 ((g.ballR * 2.05)^2)) colours) :
    List.Pairwise (sep2 ((g.ballR * 2.05)^2))
      (createRedsPracticeLayout g colours none ++ colours) := by
  unfold createRedsPracticeLayout
  dsimp only
  refine (foldl_preserves
    (fun list => List.Pairwise (sep2 ((g.ballR * 2.05)^2)) (list ++ colours)
      ∧ ∀ b ∈ list, b.potted = false)
    _ ?_ (List.range 3) [] ⟨by simpa using hcolpw, by simp⟩).1
  intro s row hP
  dsimp only
  refine foldl_preserves
    (fun list => List.Pairwise (sep2 ((g.ballR * 2.05)^2)) (list ++ colours)
      ∧ ∀ b ∈ list, b.potted = false) _ ?_ (List.range 5) s hP
  intro s' col hP'
  dsimp only
  split_ifs with hcond
  · exact guarded_append g colours hcl s' _ _ (Bool.and_eq_true _ _ ▸ hcond).2 hP'
  · exact hP'

/-- C7: in every layout produced by any of the three generation strategies
(standard triangle, clustered, practice), every pair of placed balls has
centre-to-centre distance at least 2.05 × ballRadius (the layout is
reds ++ colours; the cue ball is cleared before generation and never
present). -/
theorem c7_layout_separation (m : ℕ) (x y L : ℚ) (props : ℕ → ℕ → ℚ × ℚ)
    (hm : m = 1 ∨ m = 2 ∨ m = 3) :
    List.Pairwise (sep2 (((rebuildTableGeometry x y L).ballR * 2.05)^2))
      (layoutForMode m (rebuildTableGeometry x y L) props) := by
  rcases hm with hm | hm | hm <;> subst hm
  · rw [show layoutForMode 1 (rebuildTableGeometry x y L) props
        = createRedsStandardTriangle (rebuildTableGeometry x y L)
            ++ createColouredBalls (rebuildTableGeometry x y L) from rfl]
    exact standard_pairwise x y L
  · rw [show layoutForMode 2 (rebuildTableGeometry x y L) props
        = createRedsClusteredRandom (rebuildTableGeometry x y L)
            (createColouredBalls (rebuildTableGeometry x y L)) none props
          ++ createColouredBalls (rebuildTableGeometry x y L) from rfl]
    exact clustered_pairwise (rebuildTableGeometry x y L) _
      (colours_live _) (colours_pairwise x y L) props
  · rw [show layoutForMode 3 (rebuildTableGeometry x y L) props
        = createRedsPracticeLayout (rebuildTableGeometry x y L)
            (createColouredBalls (rebuildTableGeometry x y L)) none
          ++ createColouredBalls (rebuildTableGeometry x y L) from rfl]
    exact practice_pairwise (rebuildTableGeometry x y L) _
      (colours_live _) (colours_pairwise x y L)

/-- C7 witness: the standard layout on the outer-length-900 table is
pairwise separated. -/
theorem c7_witness :
    List.Pairwise (sep2 (((rebuildTableGeometry 0 0 900).ballR * 2.05)^2))
      (layoutForMode 1 (rebuildTableGeometry 0 0 900) (fun _ _ => (0, 0))) :=
  c7_layout_separation 1 0 0 900 (fun _ _ => (0, 0)) (Or.inl rfl)

end Snooker

